import Mathlib

/-!
Shallow embedding of `fifofile.py` (FiFoFile v1.0.0): the constructor's
FIFO-node check, the static `is_fifo_file` helper, the `stop_reading`
cancellation flag, and the epoll-based generator loops `read` / `readline`
(one poll-event step, one poll iteration, and a multi-iteration driver).
External effects (os.stat, os.mkfifo, FIFO reads, open attempts during the
hangup reopen retry) are supplied as explicit oracles.
-/

/- epoll event bits, as exposed by the Python select module on Linux. -/

def EPOLLIN : Nat := 1

def EPOLLPRI : Nat := 2

def EPOLLERR : Nat := 8

def EPOLLHUP : Nat := 16

def EPOLLMSG : Nat := 1024

/-- The interest mask registered by `read`/`readline`:
`select.EPOLLIN | select.EPOLLPRI | select.EPOLLHUP | select.EPOLLERR | select.EPOLLMSG`. -/
def read_only : Nat := EPOLLIN ||| EPOLLPRI ||| EPOLLHUP ||| EPOLLERR ||| EPOLLMSG

/- POSIX st_mode file-type constants, as used by Python's stat module. -/

def S_IFMT : Nat := 0o170000

def S_IFIFO : Nat := 0o010000

/-- `stat.S_ISFIFO(mode)`: the file-type bits of `mode` equal `S_IFIFO`. -/
def S_ISFIFO (mode : Nat) : Bool := mode &&& S_IFMT == S_IFIFO

/-- Python whitespace characters (ASCII range), as stripped by `str.strip()`:
space, tab, newline, carriage return, vertical tab, form feed. -/
def isPySpace (c : Char) : Bool :=
  c = ' ' || c = '\t' || c = '\n' || c = '\r' || c = Char.ofNat 11 || c = Char.ofNat 12

/-- Python `str.strip()` (no argument): remove leading and trailing
whitespace from both ends of the string. -/
def pyStrip (s : String) : String :=
  String.mk (List.rdropWhile isPySpace (List.dropWhile isPySpace s.toList))

/-- Whether Python `int(s, 8)` succeeds on `s` — i.e. `s` is a valid octal
numeral: optional surrounding whitespace, optional sign, optional `0o`/`0O`
marker, then at least one digit in `0..7`. (Underscore digit separators,
accepted by Python, are not modelled; no claim depends on them.) -/
def validOctalMode (s : String) : Bool :=
  let cs := List.rdropWhile isPySpace (List.dropWhile isPySpace s.toList)
  let cs := match cs with
    | '+' :: rest => rest
    | '-' :: rest => rest
    | other => other
  let cs := match cs with
    | '0' :: 'o' :: rest => rest
    | '0' :: 'O' :: rest => rest
    | other => other
  !cs.isEmpty && cs.all (fun c => '0' ≤ c && c ≤ '7')

/-- The distinct `FiFoFileError` messages raised by the source, one
constructor per `raise FiFoFileError(...)` site. -/
inductive FiFoErrorKind where
  | notAValidFifoFile
  | invalidCreateMode
  | errorOpeningFifoFile
  | errorWritingToFifoFile
  | failedToCreateFifoFile
  | alreadyExists
deriving DecidableEq

/-- Outcome of running `FiFoFile.__init__`: normal return, a raised
`FiFoFileError`, or a raised OS-level exception that the source does not
wrap. -/
inductive InitOutcome where
  | ok
  | raisesFiFoFileError (kind : FiFoErrorKind)
  | raisesOSError
deriving DecidableEq

/-- Oracle for the constructor's external effects: `statResult` is
`os.stat(path).st_mode` (`none` when `os.stat` raises), `mkfifoOk` and
`chmodOk` tell whether `os.mkfifo` / `os.chmod` succeed. -/
structure InitEnv where
  statResult : Option Nat
  mkfifoOk : Bool
  chmodOk : Bool
deriving DecidableEq

/-- `FiFoFile.__init__(path, create_if_not_exists, create_mode, ...)`.
When `os.stat` succeeds the source evaluates
`stat.S_ISFIFO(os.stat(path).st_mode)` and discards the Boolean result, so
the statable branch returns normally regardless of the file type. When
stat raises: without `create_if_not_exists` it raises the
"is not a valid fifo file" error; otherwise it validates `create_mode`
via `int(create_mode, 8)` (raising the "Invalid create mode" error on
failure) and calls `os.mkfifo` then `os.chmod`, whose exceptions
propagate unwrapped. -/
def FiFoFile.init (env : InitEnv) (create_if_not_exists : Bool) (create_mode : String) : InitOutcome :=
  match env.statResult with
  | some st_mode =>
    let _ := S_ISFIFO st_mode
    InitOutcome.ok
  | none =>
    if !create_if_not_exists then
      InitOutcome.raisesFiFoFileError FiFoErrorKind.notAValidFifoFile
    else if !validOctalMode create_mode then
      InitOutcome.raisesFiFoFileError FiFoErrorKind.invalidCreateMode
    else if !env.mkfifoOk then
      InitOutcome.raisesOSError
    else if !env.chmodOk then
      InitOutcome.raisesOSError
    else InitOutcome.ok

/-- `FiFoFile.is_fifo_file(path)`: evaluates
`stat.S_ISFIFO(os.stat(path).st_mode)` inside a try that returns `False`
on any exception, then returns `True` — the Boolean computed by
`S_ISFIFO` is discarded, exactly as in the source. -/
def FiFoFile.is_fifo_file (statResult : Option Nat) : Bool :=
  match statResult with
  | none => false
  | some st_mode =>
    let _ := S_ISFIFO st_mode
    true

/-- `FiFoFile.stop_reading()`: `self.__stop_event.set()` — the cancellation
flag becomes set whatever its previous value. -/
def stop_reading (stopEvent : Bool) : Bool :=
  true

/-- Inner helper `read_line_stripped` of `readline`: `fifo_line.strip()`. -/
def read_line_stripped (fifo_line : String) : String :=
  pyStrip fifo_line

/-- Inner helper `read_line` of `readline`: the line unchanged. -/
def read_line (fifo_line : String) : String :=
  fifo_line

/-- The transform `readline` applies to each yielded line:
`read_line = read_line_stripped` when `strip_line` else the identity
`read_line`. -/
def readLineTransform (strip_line : Bool) : String → String :=
  if strip_line then read_line_stripped else read_line

/-- `time.sleep(1)` in the hangup reopen retry: one second per failed
open attempt. -/
def hangupRetrySleepSeconds : Nat := 1

/-- The blocking reopen retry sub-loop of the `EPOLLHUP` branch
(`while FIFO is False: try open / except sleep(1)`), run against the list
of successive open-attempt results (`none` = `_open_fifo` raised,
`some fd` = it returned descriptor `fd`). Returns the seconds slept and
the new descriptor, or `none` when no attempt in the list succeeds (the
sub-loop is still blocking). It takes no cancellation flag: the source
sub-loop never consults `self.__stop_event`. -/
def reopenLoop : List (Option Nat) → Option (Nat × Nat)
  | [] => none
  | some fd :: _ => some (0, fd)
  | none :: rest =>
    match reopenLoop rest with
    | none => none
    | some (slept, fd) => some (slept + hangupRetrySleepSeconds, fd)

/-- Oracle for one poll event's external effects: `readResult` is the
result of `FIFO.readline()` / `FIFO.read(size)` (`none` when it raises,
which the source swallows), `openAttempts` feeds the hangup reopen
retry. -/
structure EventEnv where
  readResult : Option String
  openAttempts : List (Option Nat)
deriving DecidableEq

/-- What one `(fd, event)` loop-body execution does to the generator. -/
inductive EventAction where
  | terminated
  | yielded (item : String)
  | continued
  | reopened (slept : Nat) (newFd : Nat)
  | blockedReopen
deriving DecidableEq

/-- One execution of the event-dispatch body shared by `read` and
`readline` (they differ only in the read primitive and the transform `t`
applied to a non-empty read):
`if event & (EPOLLIN | EPOLLPRI)`: when the stop event is set,
unregister/close/return; otherwise read, `continue` on an empty result or
a swallowed exception, else yield. `elif event & EPOLLHUP`: run the
blocking reopen retry. Any other event bit pattern matches neither branch
and the body does nothing. -/
def stepEvent (t : String → String) (stop : Bool) (event : Nat) (env : EventEnv) : EventAction :=
  if (event &&& (EPOLLIN ||| EPOLLPRI)) ≠ 0 then
    if stop then EventAction.terminated
    else
      match env.readResult with
      | none => EventAction.continued
      | some fifo_line =>
        if fifo_line = "" then EventAction.continued
        else EventAction.yielded (t fifo_line)
  else if (event &&& EPOLLHUP) ≠ 0 then
    match reopenLoop env.openAttempts with
    | some (slept, newFd) => EventAction.reopened slept newFd
    | none => EventAction.blockedReopen
  else EventAction.continued

/-- Poller registration and open-descriptor bookkeeping. -/
structure PollerState where
  registration : List (Nat × Nat)
  openFds : List Nat
  currentFd : Nat
deriving DecidableEq

/-- `poller.unregister(fd)`: drop `fd` from the registration set. -/
def unregisterFd (reg : List (Nat × Nat)) (fd : Nat) : List (Nat × Nat) :=
  reg.filter (fun e => e.1 != fd)

/-- `FIFO.close()`: drop `fd` from the open descriptors. -/
def closeFd (fds : List Nat) (fd : Nat) : List Nat :=
  fds.filter (fun e => e != fd)

/-- Resource effect of an event action: termination (and a still-blocking
reopen) unregisters and closes the current descriptor; a completed reopen
additionally opens the new descriptor and registers it with the same
`read_only` interest mask; yielding and continuing change nothing. -/
def applyAction (a : EventAction) (s : PollerState) : PollerState :=
  match a with
  | EventAction.terminated =>
    { registration := unregisterFd s.registration s.currentFd
      openFds := closeFd s.openFds s.currentFd
      currentFd := s.currentFd }
  | EventAction.blockedReopen =>
    { registration := unregisterFd s.registration s.currentFd
      openFds := closeFd s.openFds s.currentFd
      currentFd := s.currentFd }
  | EventAction.reopened _ newFd =>
    { registration := unregisterFd s.registration s.currentFd ++ [(newFd, read_only)]
      openFds := closeFd s.openFds s.currentFd ++ [newFd]
      currentFd := newFd }
  | _ => s

/-- Whether the generator loop is still polling, has returned, or is
blocked inside the reopen retry. -/
inductive LoopStatus where
  | running
  | ended
  | blocked
deriving DecidableEq

/-- One iteration of `while True`: process the list of `(event, oracle)`
pairs returned by `poller.poll(self.polling_timeout)` in order,
collecting yielded items. An empty list is a poll timeout: the for body
never runs and the loop simply goes round again. -/
def pollIteration (t : String → String) (stop : Bool) : List (Nat × EventEnv) → List String × LoopStatus
  | [] => ([], LoopStatus.running)
  | (event, env) :: rest =>
    match stepEvent t stop event env with
    | EventAction.terminated => ([], LoopStatus.ended)
    | EventAction.blockedReopen => ([], LoopStatus.blocked)
    | EventAction.yielded item =>
      let r := pollIteration t stop rest
      (item :: r.1, r.2)
    | _ => pollIteration t stop rest

/-- Drive the generator through successive poll iterations (the
cancellation flag held fixed): once an iteration ends or blocks, no later
iteration runs and no further item is produced. -/
def runPoll (t : String → String) (stop : Bool) : List (List (Nat × EventEnv)) → List String × LoopStatus
  | [] => ([], LoopStatus.running)
  | events :: rest =>
    match pollIteration t stop events with
    | (items, LoopStatus.ended) => (items, LoopStatus.ended)
    | (items, LoopStatus.blocked) => (items, LoopStatus.blocked)
    | (items, LoopStatus.running) =>
      let r := runPoll t stop rest
      (items ++ r.1, r.2)

/-- Modelled from the spec: the spec's description of
`produceLines(stripNewline=true)` — "with trailing-newline stripped" —
i.e. remove exactly one trailing newline when present and nothing else. -/
def stripTrailingNewline (s : String) : String :=
  match s.toList.getLast? with
  | some c => if c = '\n' then String.mk s.toList.dropLast else s
  | none => s

/-! Helper lemmas shared by several claims. -/

/-- `dropWhile` distributes over an append whose left part does not drop
to nothing. -/
theorem dropWhile_append_of_ne_nil (p : Char → Bool) (l l₂ : List Char)
    (h : l.dropWhile p ≠ []) : (l ++ l₂).dropWhile p = l.dropWhile p ++ l₂ := by
  induction l with
  | nil => exact absurd rfl h
  | cons c tail ih =>
    by_cases hc : p c
    · simp only [List.cons_append, List.dropWhile_cons, hc, if_true] at h ⊢
      exact ih h
    · simp [List.dropWhile_cons, hc]

/-- A step returns `terminated` only from the readable/priority branch
with the stop flag set. -/
theorem stepEvent_terminated_iff (t : String → String) (stop : Bool) (event : Nat)
    (env : EventEnv) :
    stepEvent t stop event env = EventAction.terminated ↔
      ((event &&& (EPOLLIN ||| EPOLLPRI)) ≠ 0 ∧ stop = true) := by
  constructor
  · intro h
    unfold stepEvent at h
    split at h
    next h1 =>
      split at h
      next h2 => exact ⟨h1, h2⟩
      next h2 =>
        split at h
        next => exact EventAction.noConfusion h
        next fifo_line heq =>
          split at h
          next => exact EventAction.noConfusion h
          next => exact EventAction.noConfusion h
    next h1 =>
      split at h
      next h2 =>
        split at h
        next => exact EventAction.noConfusion h
        next => exact EventAction.noConfusion h
      next h2 => exact EventAction.noConfusion h
  · intro hc
    unfold stepEvent
    rw [if_pos hc.1, hc.2]
    rfl

/-- An iteration run with the stop flag clear never ends the sequence. -/
theorem pollIteration_not_ended_of_not_stop (t : String → String)
    (events : List (Nat × EventEnv)) :
    (pollIteration t false events).2 ≠ LoopStatus.ended := by
  induction events with
  | nil => simp [pollIteration]
  | cons pr rest ih =>
    obtain ⟨event, env⟩ := pr
    cases hs : stepEvent t false event env with
    | terminated =>
      exact absurd ((stepEvent_terminated_iff t false event env).mp hs).2 (by simp)
    | blockedReopen => simp [pollIteration, hs]
    | yielded item => simpa [pollIteration, hs] using ih
    | continued => simpa [pollIteration, hs] using ih
    | reopened slept newFd => simpa [pollIteration, hs] using ih

/-- The reopen retry over `k` failed attempts followed by a success
sleeps `k` seconds (one per failure) and returns the successful
descriptor. -/
theorem reopenLoop_replicate (k : Nat) (fd : Nat) :
    reopenLoop (List.replicate k none ++ [some fd]) =
      some (k * hangupRetrySleepSeconds, fd) := by
  induction k with
  | zero => simp [reopenLoop]
  | succ m ih =>
    rw [List.replicate_succ, List.cons_append]
    unfold reopenLoop
    rw [ih]
    simp [hangupRetrySleepSeconds, Nat.succ_mul]

/-! Claim theorems. -/

/-- Claim C1 (code_bug): the constructor evaluates `stat.S_ISFIFO` but
discards its result, so a statable path that is not a FIFO node (here a
regular file, st_mode `0o100644`) is accepted without raising, contradicting
the claimed `NotAFifo` failure; only a failing `os.stat` (e.g. nonexistent
path) raises the "not a valid fifo file" error. -/
theorem init_accepts_existing_non_fifo :
    FiFoFile.init { statResult := some 0o100644, mkfifoOk := true, chmodOk := true }
        false "0o666" = InitOutcome.ok ∧
      S_ISFIFO 0o100644 = false ∧
      FiFoFile.init { statResult := none, mkfifoOk := true, chmodOk := true }
        false "0o666" =
        InitOutcome.raisesFiFoFileError FiFoErrorKind.notAValidFifoFile := by
  decide

/-- Claim C3 (code_bug): `is_fifo_file` likewise discards the `S_ISFIFO`
result: it returns `true` for any statable path, including a regular file
whose mode fails `S_ISFIFO`, and `false` exactly when `os.stat` raises. -/
theorem is_fifo_file_ignores_fifo_check :
    FiFoFile.is_fifo_file (some 0o100644) = true ∧
      S_ISFIFO 0o100644 = false ∧
      FiFoFile.is_fifo_file none = false ∧
      FiFoFile.is_fifo_file (some 0o010644) = true := by
  decide

/-- Claim C7, counterexample: with a non-statable path, auto-create
requested and a valid mode, a failing `os.mkfifo` raises the bare OS
exception — `__init__` does not wrap it in the library error, so the
claimed `CreateFailed` library failure does not occur. -/
theorem init_create_failure_raises_os_error :
    FiFoFile.init { statResult := none, mkfifoOk := false, chmodOk := true }
        true "0o666" = InitOutcome.raisesOSError ∧
      InitOutcome.raisesOSError ≠
        InitOutcome.raisesFiFoFileError FiFoErrorKind.failedToCreateFifoFile := by
  decide

/-- Claim C7, amended: with a non-statable path and auto-create requested,
an invalid octal mode string raises the library `InvalidMode` error, and
an OS-level creation failure propagates as the raw OS exception (not a
library error); `"abc"` is invalid and `"0o666"` is valid. -/
theorem init_autocreate_error_paths :
    (∀ env mode, env.statResult = none → validOctalMode mode = false →
       FiFoFile.init env true mode =
         InitOutcome.raisesFiFoFileError FiFoErrorKind.invalidCreateMode) ∧
      (∀ env mode, env.statResult = none → validOctalMode mode = true →
         env.mkfifoOk = false → FiFoFile.init env true mode = InitOutcome.raisesOSError) ∧
      validOctalMode "abc" = false ∧ validOctalMode "0o666" = true := by
  refine ⟨?_, ?_, by decide, by decide⟩
  · intro env mode h1 h2
    simp [FiFoFile.init, h1, h2]
  · intro env mode h1 h2 h3
    simp [FiFoFile.init, h1, h2, h3]

/-- Witness for the amended claim C7 at a concrete input: auto-create with
mode string "abc" raises the `InvalidMode` library error. -/
theorem init_autocreate_invalid_mode_witness :
    FiFoFile.init { statResult := none, mkfifoOk := true, chmodOk := true }
      true "abc" = InitOutcome.raisesFiFoFileError FiFoErrorKind.invalidCreateMode :=
  init_autocreate_error_paths.1
    { statResult := none, mkfifoOk := true, chmodOk := true } "abc" rfl (by decide)

/-- Claim C2, counterexample: `strip_line=True` applies Python `strip()`,
which removes leading and trailing whitespace of every kind, not only the
trailing newline: pulling the line " hello \n" yields "hello", while
trailing-newline removal alone would give " hello ". -/
theorem readline_strip_counterexample :
    stepEvent (readLineTransform true) false EPOLLIN
        { readResult := some " hello \n", openAttempts := [] } =
      EventAction.yielded "hello" ∧
      stripTrailingNewline " hello \n" = " hello " ∧
      (" hello " : String) ≠ "hello" := by
  decide

/-- Claim C2, amended: with `strip_line=true` the yielded item is Python
`strip()` of the line (all leading and trailing whitespace removed); with
`strip_line=false` it is the raw line. On a line with no leading or
trailing whitespace of its own, stripping agrees with the spec's
trailing-newline removal; in particular writing "hello world" plus newline
yields exactly "hello world" when stripping and "hello world\n" when
not. -/
theorem readline_strip_behavior :
    (∀ s, readLineTransform true s = pyStrip s) ∧
      (∀ s, readLineTransform false s = s) ∧
      (∀ l : List Char, List.dropWhile isPySpace l = l →
         List.rdropWhile isPySpace l = l →
         readLineTransform true (String.mk (l ++ ['\n'])) =
           stripTrailingNewline (String.mk (l ++ ['\n']))) ∧
      stepEvent (readLineTransform true) false EPOLLIN
          { readResult := some "hello world\n", openAttempts := [] } =
        EventAction.yielded "hello world" ∧
      stepEvent (readLineTransform false) false EPOLLIN
          { readResult := some "hello world\n", openAttempts := [] } =
        EventAction.yielded "hello world\n" := by
  refine ⟨fun s => rfl, fun s => rfl, ?_, by decide, by decide⟩
  intro l h1 h2
  by_cases hl : l = []
  · subst hl
    decide
  · have hne : List.dropWhile isPySpace l ≠ [] := by rw [h1]; exact hl
    have hd : List.dropWhile isPySpace (l ++ ['\n']) = l ++ ['\n'] := by
      rw [dropWhile_append_of_ne_nil isPySpace l ['\n'] hne, h1]
    have hr : List.rdropWhile isPySpace (l ++ ['\n']) = l := by
      rw [List.rdropWhile_concat_pos isPySpace l '\n' rfl, h2]
    have hlhs : readLineTransform true (String.mk (l ++ ['\n'])) = String.mk l := by
      show String.mk (List.rdropWhile isPySpace
        (List.dropWhile isPySpace (l ++ ['\n']))) = String.mk l
      rw [hd, hr]
    have hrhs : stripTrailingNewline (String.mk (l ++ ['\n'])) = String.mk l := by
      show (match (l ++ ['\n']).getLast? with
        | some c => if c = '\n' then String.mk (l ++ ['\n']).dropLast else String.mk (l ++ ['\n'])
        | none => String.mk (l ++ ['\n'])) = String.mk l
      rw [List.getLast?_concat, List.dropLast_concat]
      simp
    rw [hlhs, hrhs]

/-- Witness for the amended claim C2: the line "hello world\n" has no
surrounding whitespace of its own, and stripping it agrees with the
spec's trailing-newline removal. -/
theorem readline_strip_round_trip_witness :
    readLineTransform true (String.mk ("hello world".toList ++ ['\n'])) =
      stripTrailingNewline (String.mk ("hello world".toList ++ ['\n'])) :=
  readline_strip_behavior.2.2.1 "hello world".toList (by decide) (by decide)

/-- Claim C10 (implicit full-strip behavior): with `strip_line=true` a
yielded line made only of whitespace strips to the empty string — a lone
"\n" is read as non-empty, so the generator yields "" as an item — and a
whitespace character (space, tab, newline, ...) is removed from either
end of any line. -/
theorem strip_line_full_strip :
    (∀ s : String, s.toList.all isPySpace = true → readLineTransform true s = "") ∧
      stepEvent (readLineTransform true) false EPOLLIN
          { readResult := some "\n", openAttempts := [] } =
        EventAction.yielded "" ∧
      (∀ (c : Char) (l : List Char), isPySpace c = true →
         pyStrip (String.mk (c :: l)) = pyStrip (String.mk l) ∧
         pyStrip (String.mk (l ++ [c])) = pyStrip (String.mk l)) ∧
      (isPySpace ' ' = true ∧ isPySpace '\t' = true ∧ isPySpace '\n' = true) := by
  refine ⟨?_, by decide, ?_, by decide⟩
  · intro s hall
    have hd : List.dropWhile isPySpace s.toList = [] := by
      rw [List.dropWhile_eq_nil_iff]
      intro x hx
      exact List.all_eq_true.mp hall x hx
    show String.mk (List.rdropWhile isPySpace (List.dropWhile isPySpace s.toList)) = ""
    rw [hd]
    rfl
  · intro c l hc
    constructor
    · show String.mk (List.rdropWhile isPySpace (List.dropWhile isPySpace (c :: l))) =
        String.mk (List.rdropWhile isPySpace (List.dropWhile isPySpace l))
      rw [List.dropWhile_cons, if_pos hc]
    · by_cases hnil : List.dropWhile isPySpace l = []
      · have hall : ∀ x ∈ l, isPySpace x := List.dropWhile_eq_nil_iff.mp hnil
        have h2 : List.dropWhile isPySpace (l ++ [c]) = [] := by
          rw [List.dropWhile_eq_nil_iff]
          intro x hx
          rcases List.mem_append.mp hx with h | h
          · exact hall x h
          · rw [List.mem_singleton.mp h]
            exact hc
        show String.mk (List.rdropWhile isPySpace (List.dropWhile isPySpace (l ++ [c]))) =
          String.mk (List.rdropWhile isPySpace (List.dropWhile isPySpace l))
        rw [h2, hnil]
      · show String.mk (List.rdropWhile isPySpace (List.dropWhile isPySpace (l ++ [c]))) =
          String.mk (List.rdropWhile isPySpace (List.dropWhile isPySpace l))
        rw [dropWhile_append_of_ne_nil isPySpace l [c] hnil,
          List.rdropWhile_concat_pos isPySpace (List.dropWhile isPySpace l) c hc]

/-- Witness for claim C10: the all-whitespace line " \n" strips to the
empty string. -/
theorem strip_line_whitespace_witness :
    readLineTransform true " \n" = "" :=
  strip_line_full_strip.1 " \n" (by decide)

/-- Claim C4 (temporal): the generator can end only in the
readable/priority branch with the stop flag set; a poll timeout (no
events) just loops; any event without the readable/priority bits is
handled identically whether or not the flag is set (the hangup reopen
retry never consults it); and with the flag clear, no run of the loop
ever ends the sequence. -/
theorem loop_ends_only_on_stop_during_readable :
    (∀ (t : String → String) (stop : Bool) (event : Nat) (env : EventEnv),
       stepEvent t stop event env = EventAction.terminated →
         (event &&& (EPOLLIN ||| EPOLLPRI)) ≠ 0 ∧ stop = true) ∧
      (∀ (t : String → String) (stop : Bool),
         pollIteration t stop [] = ([], LoopStatus.running)) ∧
      (∀ (t : String → String) (event : Nat) (env : EventEnv),
         (event &&& (EPOLLIN ||| EPOLLPRI)) = 0 →
           stepEvent t true event env = stepEvent t false event env) ∧
      (∀ (t : String → String) (polls : List (List (Nat × EventEnv))),
         (runPoll t false polls).2 ≠ LoopStatus.ended) := by
  refine ⟨?_, fun t stop => rfl, ?_, ?_⟩
  · intro t stop event env h
    exact (stepEvent_terminated_iff t stop event env).mp h
  · intro t event env h
    simp [stepEvent, h]
  · intro t polls
    induction polls with
    | nil => simp [runPoll]
    | cons events rest ih =>
      have hne := pollIteration_not_ended_of_not_stop t events
      cases h : pollIteration t false events with
      | mk items status =>
        rw [h] at hne
        cases status with
        | ended => exact absurd rfl hne
        | blocked => simp [runPoll, h]
        | running => simpa [runPoll, h] using ih

/-- Witness for claim C4: a readable event with the flag set terminates,
and the theorem recovers that the event had the readable bit and the flag
was set. -/
theorem loop_ends_witness :
    (EPOLLIN &&& (EPOLLIN ||| EPOLLPRI)) ≠ 0 ∧ true = true :=
  loop_ends_only_on_stop_during_readable.1 id true EPOLLIN
    { readResult := none, openAttempts := [] } (by decide)

/-- Claim C5, counterexample: an error-only event (`EPOLLERR`, bit 8,
without the `EPOLLHUP` bit) matches neither the readable branch nor the
`elif event & EPOLLHUP` branch — no descriptor is closed and no reopen is
attempted even when an open would succeed at once, contrary to the claim
that error events trigger the reopen procedure. -/
theorem error_event_triggers_no_reopen :
    stepEvent id false EPOLLERR { readResult := none, openAttempts := [some 7] } =
      EventAction.continued ∧
      EventAction.continued ≠ EventAction.reopened 0 7 ∧
      (EPOLLERR &&& EPOLLHUP) = 0 ∧
      applyAction EventAction.continued
          { registration := [(3, read_only)], openFds := [3], currentFd := 3 } =
        { registration := [(3, read_only)], openFds := [3], currentFd := 3 } := by
  decide

/-- Claim C5, amended: on a hangup event (HUP bit set, readable bits
clear) the sequence does not terminate: the descriptor is unregistered
and closed, the open is retried — sleeping `hangupRetrySleepSeconds` (one
second) per failed attempt — until an attempt succeeds, and the new
descriptor is registered with the same `read_only` interest set; an
error-only event instead matches neither branch and the iteration is
skipped. -/
theorem hangup_event_reopen_behavior :
    (∀ (t : String → String) (stop : Bool) (event : Nat) (env : EventEnv)
       (slept newFd : Nat),
       (event &&& (EPOLLIN ||| EPOLLPRI)) = 0 → (event &&& EPOLLHUP) ≠ 0 →
         reopenLoop env.openAttempts = some (slept, newFd) →
           stepEvent t stop event env = EventAction.reopened slept newFd) ∧
      (∀ k fd, reopenLoop (List.replicate k none ++ [some fd]) =
         some (k * hangupRetrySleepSeconds, fd)) ∧
      (∀ (s : PollerState) (slept newFd : Nat),
         applyAction (EventAction.reopened slept newFd) s =
           { registration := unregisterFd s.registration s.currentFd ++ [(newFd, read_only)]
             openFds := closeFd s.openFds s.currentFd ++ [newFd]
             currentFd := newFd }) ∧
      (∀ slept newFd, EventAction.reopened slept newFd ≠ EventAction.terminated) ∧
      (∀ (t : String → String) (stop : Bool) (env : EventEnv),
         stepEvent t stop EPOLLERR env = EventAction.continued) := by
  refine ⟨?_, reopenLoop_replicate, fun s slept newFd => rfl, ?_, fun t stop env => rfl⟩
  · intro t stop event env slept newFd h1 h2 h3
    unfold stepEvent
    rw [if_neg (fun hne => hne h1), if_pos h2, h3]
  · intro slept newFd h
    exact EventAction.noConfusion h

/-- Witness for the amended claim C5: a pure hangup event whose first
reopen attempt fails and whose second succeeds on descriptor 7 yields a
reopen after one one-second sleep. -/
theorem hangup_event_reopen_witness :
    stepEvent id false EPOLLHUP { readResult := none, openAttempts := [none, some 7] } =
      EventAction.reopened 1 7 :=
  hangup_event_reopen_behavior.1 id false EPOLLHUP
    { readResult := none, openAttempts := [none, some 7] } 1 7
    (by decide) (by decide) (by decide)

/-- Claim C6: a readable/priority event arriving with the stop flag set
makes the loop return cleanly: the descriptor is unregistered from the
poll set and closed, nothing is yielded on that pull, and no later poll
iteration can produce an item. -/
theorem stop_during_readable_ends_cleanly :
    (∀ (t : String → String) (event : Nat) (env : EventEnv),
       (event &&& (EPOLLIN ||| EPOLLPRI)) ≠ 0 →
         stepEvent t true event env = EventAction.terminated) ∧
      (∀ (t : String → String) (event : Nat) (env : EventEnv)
         (moreEvents : List (Nat × EventEnv)) (rest : List (List (Nat × EventEnv))),
         (event &&& (EPOLLIN ||| EPOLLPRI)) ≠ 0 →
           runPoll t true (((event, env) :: moreEvents) :: rest) = ([], LoopStatus.ended)) ∧
      (∀ s : PollerState, applyAction EventAction.terminated s =
         { registration := unregisterFd s.registration s.currentFd
           openFds := closeFd s.openFds s.currentFd
           currentFd := s.currentFd }) ∧
      (∀ (reg : List (Nat × Nat)) (fd : Nat) (e : Nat × Nat),
         e ∈ unregisterFd reg fd → e.1 ≠ fd) ∧
      (∀ (fds : List Nat) (fd : Nat), fd ∉ closeFd fds fd) := by
  refine ⟨?_, ?_, fun s => rfl, ?_, ?_⟩
  · intro t event env h
    exact (stepEvent_terminated_iff t true event env).mpr ⟨h, rfl⟩
  · intro t event env moreEvents rest h
    have hstep : stepEvent t true event env = EventAction.terminated :=
      (stepEvent_terminated_iff t true event env).mpr ⟨h, rfl⟩
    simp [runPoll, pollIteration, hstep]
  · intro reg fd e he
    simpa using (List.mem_filter.mp he).2
  · intro fds fd h
    have := (List.mem_filter.mp h).2
    simp at this

/-- Witness for claim C6: with the flag set, a readable event terminates
the generator at once. -/
theorem stop_during_readable_witness :
    runPoll id true [[(EPOLLIN, { readResult := some "x", openAttempts := [] })]] =
      ([], LoopStatus.ended) :=
  stop_during_readable_ends_cleanly.2.1 id EPOLLIN
    { readResult := some "x", openAttempts := [] } [] [] (by decide)

/-- Claim C8: a readable event whose read returns the empty string hits
the `if not fifo_line: continue` path — nothing is yielded (no empty
item), nothing is raised (the embedding's loop has no raising outcome:
the source swallows read exceptions), the sequence does not end, and the
iteration goes on with the remaining events; resources are untouched. -/
theorem empty_read_skips_iteration :
    (∀ (t : String → String) (event : Nat) (env : EventEnv),
       (event &&& (EPOLLIN ||| EPOLLPRI)) ≠ 0 → env.readResult = some "" →
         stepEvent t false event env = EventAction.continued) ∧
      (∀ (t : String → String) (event : Nat) (env : EventEnv)
         (moreEvents : List (Nat × EventEnv)),
         (event &&& (EPOLLIN ||| EPOLLPRI)) ≠ 0 → env.readResult = some "" →
           pollIteration t false ((event, env) :: moreEvents) =
             pollIteration t false moreEvents) ∧
      (∀ (t : String → String) (events : List (Nat × EventEnv)),
         (pollIteration t false events).2 ≠ LoopStatus.ended) ∧
      (∀ s : PollerState, applyAction EventAction.continued s = s) := by
  refine ⟨?_, ?_, pollIteration_not_ended_of_not_stop, fun s => rfl⟩
  · intro t event env h1 h2
    simp [stepEvent, h1, h2]
  · intro t event env moreEvents h1 h2
    have hstep : stepEvent t false event env = EventAction.continued := by
      simp [stepEvent, h1, h2]
    simp [pollIteration, hstep]

/-- Witness for claim C8: an empty read on a readable event produces no
action and leaves the iteration running. -/
theorem empty_read_witness :
    pollIteration id false [(EPOLLIN, { readResult := some "", openAttempts := [] })] =
      pollIteration id false [] :=
  empty_read_skips_iteration.2.1 id EPOLLIN
    { readResult := some "", openAttempts := [] } [] (by decide) (by decide)

/-- Claim C9: `stop_reading` only performs `Event.set()` on the
cancellation flag, so calling it `n ≥ 1` times from any interleaving
leaves the flag exactly as one call does, and every loop step behaves
identically under the two flags; it touches no descriptor or
registration, so no duplicate release can occur. -/
theorem stop_reading_idempotent :
    ∀ (n : Nat) (s : Bool), 1 ≤ n →
      stop_reading^[n] s = stop_reading s ∧
        (∀ (t : String → String) (event : Nat) (env : EventEnv),
           stepEvent t (stop_reading^[n] s) event env =
             stepEvent t (stop_reading s) event env) := by
  have key : ∀ (m : Nat) (s : Bool), stop_reading^[m + 1] s = true := by
    intro m s
    rw [Function.iterate_succ_apply']
    rfl
  intro n s hn
  obtain ⟨m, rfl⟩ := Nat.exists_eq_add_of_le hn
  have h1 : stop_reading^[1 + m] s = true := by
    rw [Nat.add_comm]
    exact key m s
  exact ⟨h1, fun t event env => by rw [h1]; rfl⟩

/-- Witness for claim C9: three calls to `stop_reading` starting from a
clear flag have the effect of one. -/
theorem stop_reading_idempotent_witness :
    stop_reading^[3] false = stop_reading false :=
  (stop_reading_idempotent 3 false (by decide)).1
